import Mathlib

/-!
# Verification of the proteolizard-data frame/spectrum/slice layer

A shallow embedding of `src/python/pyproteolizard/data.py` together with the
parts of the native `libproteolizard` backend that the Python layer calls.
The Python file is the authority for everything it implements; operations the
Python layer merely forwards to the native backend (frame merging, resolution
reduction, range filtering, point flattening) are modelled from the
specification, each such definition marked `Modelled from the spec:` in its
doc comment.

Numbers: masses, retention times, intensities and inverse mobilities are
rationals; frame ids are integers; scan indices are naturals.
-/

/-- Error kinds of the error-handling design (§7): `NotFound`,
`IdentityMismatch`, `ResolutionMismatch`.  In the Python layer a missing
dictionary key surfaces as a `KeyError` naming the key, embedded here as
`notFound`. -/
inductive PlError where
  | notFound (id : ℤ)
  | identityMismatch (idLeft idRight : ℤ)
  | resolutionMismatch (resLeft resRight : ℕ)
  deriving DecidableEq, Repr

/-- `true` iff an `Except` computation succeeded. -/
def exceptOk {ε α : Type _} : Except ε α → Bool
  | .ok _ => true
  | .error _ => false

/-! ## Coordinate binning (§4.1) -/

/-- `bin(value, resolution) = round(value * 10^resolution)` (§4.1). -/
def bin (value : ℚ) (resolution : ℕ) : ℤ :=
  round (value * 10 ^ resolution)

/-- `unbin(index, resolution) = index / 10^resolution` (§4.1). -/
def unbin (index : ℤ) (resolution : ℕ) : ℚ :=
  (index : ℚ) / 10 ^ resolution

/-! ## Events and native frames -/

/-- One detected ion event of a frame: drift-time scan index, mass-to-charge
value, intensity and inverse ion mobility (§3). -/
structure RawEvent where
  scan : ℕ
  mass : ℚ
  intensity : ℚ
  invIonMobility : ℚ
  deriving DecidableEq, Repr

/-- The native frame object behind `pl.ExposedTimsDataHandle.getFrame`:
a frame id together with the ordered event sequence (§3).  The parallel
arrays `scan/mz/intensity/inverse_mobility` of the source are embedded as one
list of `RawEvent`s, which builds the equal-length invariant into the type. -/
structure NativeTimsFrame where
  frameId : ℤ
  events : List RawEvent
  deriving DecidableEq, Repr

/-- Modelled from the spec: the native `+` called by `TimsFrame.__add__`
(data.py line 212).  Per §4.4, merge requires identical `frame_id` and
concatenates the events of both operands without deduplication; differing
ids fail with `IdentityMismatch`. -/
def NativeTimsFrame.add (x y : NativeTimsFrame) : Except PlError NativeTimsFrame :=
  if x.frameId = y.frameId then
    .ok { frameId := x.frameId, events := x.events ++ y.events }
  else
    .error (.identityMismatch x.frameId y.frameId)

/-- One bucketed event of a resolution-reduced frame: scan index, integer
bucket index, accumulated intensity, and the representative inverse
mobility. -/
structure BinnedEvent where
  scan : ℕ
  index : ℤ
  intensity : ℚ
  invIonMobility : ℚ
  deriving DecidableEq, Repr

/-- A resolution-reduced frame: frame id and bucketed events. -/
structure BinnedTimsFrame where
  frameId : ℤ
  events : List BinnedEvent
  deriving DecidableEq, Repr

/-- Fold one bucketed event into an accumulator list: if a bucket with the
same scan and index is present its intensity is increased (inverse mobility
of the first occurrence kept), otherwise the event is appended. -/
def accumulateBinned : List BinnedEvent → BinnedEvent → List BinnedEvent
  | [], e => [e]
  | a :: rest, e =>
    if a.scan = e.scan ∧ a.index = e.index then
      { a with intensity := a.intensity + e.intensity } :: rest
    else
      a :: accumulateBinned rest e

/-- Modelled from the spec: the native `toResolution` called by
`TimsFrame.to_resolution` (data.py lines 214-219).  Per §4.4, every event's
mass is binned via §4.1 and events colliding in the same scan and the same
bucket have their intensities summed, the inverse mobility of the first
occurrence retained. -/
def NativeTimsFrame.toResolution (f : NativeTimsFrame) (resolution : ℕ) : BinnedTimsFrame :=
  { frameId := f.frameId,
    events := f.events.foldl
      (fun acc e =>
        accumulateBinned acc
          { scan := e.scan, index := bin e.mass resolution,
            intensity := e.intensity, invIonMobility := e.invIonMobility })
      [] }

/-- Modelled from the spec: the native `filterRanged` called by
`TimsFrame.filter_ranged` (data.py lines 228-229).  Per §4.4, it retains the
events with `scan_min ≤ scan ≤ scan_max`, `mz_min ≤ mass ≤ mz_max` and
`intensity ≥ intensity_min`, preserving relative order and the frame id. -/
def NativeTimsFrame.filterRanged (f : NativeTimsFrame) (scanMin scanMax : ℕ)
    (mzMin mzMax : ℚ) (intensityMin : ℚ) : NativeTimsFrame :=
  { frameId := f.frameId,
    events := f.events.filter fun e =>
      decide (scanMin ≤ e.scan) && decide (e.scan ≤ scanMax) &&
      decide (mzMin ≤ e.mass) && decide (e.mass ≤ mzMax) &&
      decide (intensityMin ≤ e.intensity) }

/-! ## Data-handle metadata (§4.7, §6) -/

/-- One row of the `Frames` metadata table (§6): frame id, acquisition time
in seconds, and the `MsMsType` tag (precursor = 0, fragment ≠ 0). -/
structure MetaRow where
  Id : ℤ
  Time : ℚ
  MsMsType : ℤ
  deriving DecidableEq, Repr

/-- `PyTimsDataHandle.__get_frame_ids_by_type_rt_range` (data.py lines
105-107): restrict the metadata to rows with
`rt_start ≤ Time ≤ rt_stop`, then split the surviving ids by
`MsMsType == 0` versus `MsMsType != 0`. -/
def get_frame_ids_by_type_rt_range (meta : List MetaRow) (rtStart rtStop : ℚ) :
    List ℤ × List ℤ :=
  let frames := meta.filter fun r => decide (rtStart ≤ r.Time) && decide (r.Time ≤ rtStop)
  ((frames.filter fun r => decide (r.MsMsType = 0)).map MetaRow.Id,
   (frames.filter fun r => ! decide (r.MsMsType = 0)).map MetaRow.Id)

/-- `PyTimsDataHandle.get_slice_rt_range` (data.py lines 41-43): resolve the
retention-time window to (precursor, fragment) id lists and delegate to
`get_slice`, which is the abstract parameter `gs` here (its body is a native
fetch). -/
def get_slice_rt_range {σ : Type _} (gs : List ℤ → List ℤ → σ)
    (meta : List MetaRow) (rtMin rtMax : ℚ) : σ :=
  let ids := get_frame_ids_by_type_rt_range meta rtMin rtMax
  gs ids.1 ids.2

/-- The dictionary `d = dict(zip(meta_data.Id, meta_data.Time))` built by
`PyTimsDataHandle.frames_to_rts` (data.py line 62); on duplicate ids the last
row wins, as in a Python dict built from a zip. -/
def metaDict (meta : List MetaRow) (id : ℤ) : Option ℚ :=
  (meta.reverse.find? fun r => decide (r.Id = id)).map MetaRow.Time

/-- `PyTimsDataHandle.frames_to_rts` (data.py lines 61-63): the list
comprehension `[d[x] for x in frames]`, evaluated left to right; a missing
key raises `KeyError(x)`, embedded as `PlError.notFound x`. -/
def frames_to_rts (meta : List MetaRow) : List ℤ → Except PlError (List ℚ)
  | [] => .ok []
  | x :: xs =>
    match metaDict meta x with
    | none => .error (.notFound x)
    | some t =>
      match frames_to_rts meta xs with
      | .ok ts => .ok (t :: ts)
      | .error e => .error e

/-! ## Data-handle construction (data.py lines 9-26) -/

/-- The native storage handle `pl.ExposedTimsDataHandle(dp, bp)`; the core
treats it as a black box (§6), so only its constructor arguments appear. -/
structure ExposedTimsDataHandle where
  dp : String
  bp : String
  deriving DecidableEq, Repr

/-- The outcomes of the external calls made by `PyTimsDataHandle.__init__`
for one data path: the three sqlite metadata queries (precursor ids,
fragment ids, full table) and the native storage-handle acquisition, each of
which can raise. -/
structure ConstructEnv where
  precursorQuery : Except PlError (List ℤ)
  fragmentQuery : Except PlError (List ℤ)
  metaQuery : Except PlError (List MetaRow)
  handleAcquire : Except PlError ExposedTimsDataHandle

/-- The constructed handle object: the cached metadata and, when the
acquisition succeeded, the native storage handle.  `handle = none` models
the object left without the `__handle` attribute. -/
structure PyTimsDataHandle where
  precursor_frames : List ℤ
  fragment_frames : List ℤ
  meta_data : List MetaRow
  handle : Option ExposedTimsDataHandle

/-- `PyTimsDataHandle.__init__` (data.py lines 9-26): the metadata queries
run first and any exception from them propagates to the caller; the storage
acquisition `pl.ExposedTimsDataHandle(dp, bp)` runs inside
`try ... except Exception as e: print(e)`, so its failure is printed and
construction still returns an object, with no storage handle attached. -/
def PyTimsDataHandle.init (env : ConstructEnv) : Except PlError PyTimsDataHandle :=
  match env.precursorQuery with
  | .error e => .error e
  | .ok p =>
    match env.fragmentQuery with
    | .error e => .error e
    | .ok f =>
      match env.metaQuery with
      | .error e => .error e
      | .ok m =>
        match env.handleAcquire with
        | .ok h => .ok ⟨p, f, m, some h⟩
        | .error _ => .ok ⟨p, f, m, none⟩

/-! ## Spectrum wrappers and wrapping discipline (data.py lines 110-134) -/

/-- The native spectrum object behind an `MzSpectrum`: identity and the
sparse (mass, intensity) sequence (§3). -/
structure NativeMzSpectrum where
  frameId : ℤ
  scanId : ℤ
  pairs : List (ℚ × ℚ)
  deriving DecidableEq, Repr

/-- A resolution-reduced native spectrum, keyed by bucket index. -/
structure NativeBinnedSpectrum where
  frameId : ℤ
  scanId : ℤ
  pairs : List (ℤ × ℚ)
  deriving DecidableEq, Repr

/-- Fold one (index, intensity) pair into an accumulator, summing
intensities of an already-present index. -/
def accumulatePair : List (ℤ × ℚ) → ℤ × ℚ → List (ℤ × ℚ)
  | [], p => [p]
  | a :: rest, p =>
    if a.1 = p.1 then (a.1, a.2 + p.2) :: rest
    else a :: accumulatePair rest p

/-- Modelled from the spec: the native `toResolution` called by
`MzSpectrum.to_resolution` (data.py line 134).  Per §4.2, it bins every
mass via §4.1 and accumulates intensities of colliding bins. -/
def NativeMzSpectrum.toResolution (s : NativeMzSpectrum) (resolution : ℕ) :
    NativeBinnedSpectrum :=
  { frameId := s.frameId, scanId := s.scanId,
    pairs := s.pairs.foldl
      (fun acc p => accumulatePair acc (bin p.1 resolution, p.2)) [] }

/-- The Python wrapper class `MzSpectrum` (data.py line 110): it holds the
native spectrum pointer and offers the accessors `frame_id/scan_id/mz/`
`intensity` and the `+` merge operator. -/
structure MzSpectrum where
  spec : NativeMzSpectrum
  deriving DecidableEq, Repr

/-- The Python wrapper class `TimsFrame` (data.py line 189): it holds the
native frame pointer. -/
structure TimsFrame where
  frame : NativeTimsFrame
  deriving DecidableEq, Repr

/-- The Python wrapper class `TimsFrame` around a resolution-reduced native
frame, as built by `TimsFrame.to_resolution` (data.py line 219). -/
structure BinnedTimsFrameWrapper where
  frame : BinnedTimsFrame
  deriving DecidableEq, Repr

/-- A runtime value of the Python layer, tagged by the class of the object:
an instance of a wrapper class (`MzSpectrum`, `TimsFrame`), or a bare native
object returned without wrapping. -/
inductive PyObject where
  | mzSpectrumObj (s : MzSpectrum)
  | timsFrameObj (f : TimsFrame)
  | binnedTimsFrameObj (f : BinnedTimsFrameWrapper)
  | nativeSpectrumObj (n : NativeBinnedSpectrum)
  deriving DecidableEq, Repr

/-- Whether a runtime value is an instance of the class `MzSpectrum`, hence
offers its accessors (`mz()`, `intensity()`, ...) and its `+` operator
(data.py lines 114-127). -/
def offersMzSpectrumInterface : PyObject → Bool
  | .mzSpectrumObj _ => true
  | _ => false

/-- Whether a runtime value is an instance of a `TimsFrame` wrapper class. -/
def offersTimsFrameInterface : PyObject → Bool
  | .timsFrameObj _ => true
  | .binnedTimsFrameObj _ => true
  | _ => false

/-- `MzSpectrum.to_resolution` (data.py lines 129-134): it returns
`self.__spec.toResolution(resolution)` directly — the bare native object,
not wrapped in `MzSpectrum`. -/
def MzSpectrum.to_resolution (s : MzSpectrum) (resolution : ℕ) : PyObject :=
  .nativeSpectrumObj (s.spec.toResolution resolution)

/-- `TimsFrame.to_resolution` (data.py lines 214-219): it returns
`TimsFrame(self.__frame.toResolution(resolution))` — the native result
wrapped in a new frame object. -/
def TimsFrame.to_resolution (f : TimsFrame) (resolution : ℕ) : PyObject :=
  .binnedTimsFrameObj ⟨f.frame.toResolution resolution⟩

/-! ## Slices and the point table (data.py lines 239-271) -/

/-- The native slice object: the precursor partition and the fragment
partition, each an ordered list of frames (§3). -/
structure NativeTimsSlice where
  precursors : List NativeTimsFrame
  fragments : List NativeTimsFrame
  deriving DecidableEq, Repr

/-- Modelled from the spec: the native `filterRanged` called by
`TimsSlice.filter_ranged` (data.py line 256).  Per §4.6, the frame-level
filter is applied independently to every precursor and fragment frame,
keeping the partitioning. -/
def NativeTimsSlice.filterRanged (s : NativeTimsSlice) (scanMin scanMax : ℕ)
    (mzMin mzMax : ℚ) (intensityMin : ℚ) : NativeTimsSlice :=
  { precursors := s.precursors.map
      (·.filterRanged scanMin scanMax mzMin mzMax intensityMin),
    fragments := s.fragments.map
      (·.filterRanged scanMin scanMax mzMin mzMax intensityMin) }

/-- `TimsSlice.filter_ranged` with all five arguments supplied: it forwards
them to the native filter as
`filterRanged(scan_min, scan_max, mz_min, mz_max, intensity_min)`
(data.py line 256). -/
def TimsSlice.filter_ranged (s : NativeTimsSlice) (mzMin mzMax : ℚ)
    (scanMin scanMax : ℕ) (intensityMin : ℚ) : NativeTimsSlice :=
  s.filterRanged scanMin scanMax mzMin mzMax intensityMin

/-- `TimsSlice.filter_ranged` as called with only the mass bounds: the
signature (data.py line 255) defaults `scan_min=0`, `scan_max=1000`,
`intensity_min=0`. -/
def TimsSlice.filter_ranged_defaults (s : NativeTimsSlice) (mzMin mzMax : ℚ) :
    NativeTimsSlice :=
  TimsSlice.filter_ranged s mzMin mzMax 0 1000 0

/-- One row of the point table: columns
{frame, scan, mass, inverse-mobility, intensity} (§3). -/
structure Point where
  frame : ℤ
  scan : ℕ
  mz : ℚ
  invIonMob : ℚ
  intensity : ℚ
  deriving DecidableEq, Repr

/-- Modelled from the spec: the `getFrames` column of the native points
object (data.py line 264) — for each frame of the projected partition, in
order, its frame id repeated once per event. -/
def framesColumn (fs : List NativeTimsFrame) : List ℤ :=
  fs.flatMap fun f => f.events.map fun _ => f.frameId

/-- Modelled from the spec: the `getScans` column (data.py line 265) — the
scan indices of all events, frame order then within-frame event order. -/
def scansColumn (fs : List NativeTimsFrame) : List ℕ :=
  fs.flatMap fun f => f.events.map RawEvent.scan

/-- Modelled from the spec: the `getMz` column (data.py line 266). -/
def mzColumn (fs : List NativeTimsFrame) : List ℚ :=
  fs.flatMap fun f => f.events.map RawEvent.mass

/-- Modelled from the spec: the `getInvIonMobility` column (data.py
line 267). -/
def invIonMobilityColumn (fs : List NativeTimsFrame) : List ℚ :=
  fs.flatMap fun f => f.events.map RawEvent.invIonMobility

/-- Modelled from the spec: the `getIntensity` column (data.py line 268). -/
def intensityColumn (fs : List NativeTimsFrame) : List ℚ :=
  fs.flatMap fun f => f.events.map RawEvent.intensity

/-- Zip the five parallel columns into rows, as the `pd.DataFrame`
construction of `Points3D.get_points` (data.py line 270) aligns its columns
positionally. -/
def zipColumns : List ℤ → List ℕ → List ℚ → List ℚ → List ℚ → List Point
  | a :: as, b :: bs, c :: cs, d :: ds, e :: es =>
    ⟨a, b, c, d, e⟩ :: zipColumns as bs cs ds es
  | _, _, _, _, _ => []

/-- `Points3D.get_points` (data.py lines 263-270) for the points object of a
projected partition `fs`: read the five columns and assemble the table. -/
def Points3D.get_points (fs : List NativeTimsFrame) : List Point :=
  zipColumns (framesColumn fs) (scansColumn fs) (mzColumn fs)
    (invIonMobilityColumn fs) (intensityColumn fs)

/-- `TimsSlice.get_precursor_points` (data.py lines 249-250): project the
precursor partition through `Points3D.get_points`. -/
def TimsSlice.get_precursor_points (s : NativeTimsSlice) : List Point :=
  Points3D.get_points s.precursors

/-- The point table as §4.6/§3 describe it: one row per retained event,
frame order then within-frame event order. -/
def pointTableSpec (fs : List NativeTimsFrame) : List Point :=
  fs.flatMap fun f =>
    f.events.map fun e => ⟨f.frameId, e.scan, e.mass, e.invIonMobility, e.intensity⟩

/-! ## Theorems -/

/-- C7: for every value and every resolution, the binning round trip
`unbin (bin v r) r` lands within `0.5 * 10^(-r)` of `v`. -/
theorem bin_unbin_roundtrip (v : ℚ) (r : ℕ) :
    |unbin (bin v r) r - v| ≤ 1 / 2 * (1 / 10 ^ r) := by
  have h10 : (0 : ℚ) < 10 ^ r := by positivity
  have key : unbin (bin v r) r - v
      = ((round (v * 10 ^ r) : ℚ) - v * 10 ^ r) / 10 ^ r := by
    unfold unbin bin
    field_simp
    ring
  rw [key, abs_div, abs_of_pos h10, div_le_iff₀ h10]
  have hr : |(round (v * 10 ^ r) : ℚ) - v * 10 ^ r| ≤ 1 / 2 := by
    rw [abs_sub_comm]
    exact abs_sub_round (v * 10 ^ r)
  calc |(round (v * 10 ^ r) : ℚ) - v * 10 ^ r| ≤ 1 / 2 := hr
    _ = 1 / 2 * (1 / 10 ^ r) * 10 ^ r := by field_simp

/-- C4: merging two frames whose frame ids differ fails with
`IdentityMismatch` instead of returning a result. -/
theorem add_identity_mismatch (x y : NativeTimsFrame) (h : x.frameId ≠ y.frameId) :
    NativeTimsFrame.add x y = .error (.identityMismatch x.frameId y.frameId) := by
  simp [NativeTimsFrame.add, h]

/-- Witness for C4: merging a frame with `frame_id = 1` and a frame with
`frame_id = 2` raises `IdentityMismatch`. -/
theorem add_identity_mismatch_witness :
    NativeTimsFrame.add ⟨1, []⟩ ⟨2, []⟩ = .error (.identityMismatch 1 2) :=
  add_identity_mismatch ⟨1, []⟩ ⟨2, []⟩ (by decide)

/-- C5: for frames with equal frame id, the un-binned merge concatenates the
raw events — its event multiset is the multiset union of both operands'
events — and is therefore commutative up to ordering. -/
theorem add_concat_and_comm (x y : NativeTimsFrame) (h : x.frameId = y.frameId) :
    ∃ z w, NativeTimsFrame.add x y = .ok z ∧ NativeTimsFrame.add y x = .ok w ∧
      (z.events : Multiset RawEvent)
        = (x.events : Multiset RawEvent) + (y.events : Multiset RawEvent) ∧
      (z.events : Multiset RawEvent) = (w.events : Multiset RawEvent) := by
  refine ⟨⟨x.frameId, x.events ++ y.events⟩, ⟨y.frameId, y.events ++ x.events⟩,
    ?_, ?_, ?_, ?_⟩
  · simp [NativeTimsFrame.add, h]
  · simp [NativeTimsFrame.add, h.symm]
  · exact Multiset.coe_add x.events y.events
  · show ((x.events ++ y.events : List RawEvent) : Multiset RawEvent)
      = ((y.events ++ x.events : List RawEvent) : Multiset RawEvent)
    exact Multiset.coe_eq_coe.mpr List.perm_append_comm

/-- Witness for C5 at two concrete frames with frame id 1. -/
theorem add_concat_and_comm_witness :
    ∃ z w,
      NativeTimsFrame.add ⟨1, [⟨2, 5, 7, 1⟩]⟩ ⟨1, [⟨3, 6, 8, 1⟩]⟩ = .ok z ∧
      NativeTimsFrame.add ⟨1, [⟨3, 6, 8, 1⟩]⟩ ⟨1, [⟨2, 5, 7, 1⟩]⟩ = .ok w ∧
      (z.events : Multiset RawEvent)
        = (([⟨2, 5, 7, 1⟩] : List RawEvent) : Multiset RawEvent)
          + (([⟨3, 6, 8, 1⟩] : List RawEvent) : Multiset RawEvent) ∧
      (z.events : Multiset RawEvent) = (w.events : Multiset RawEvent) :=
  add_concat_and_comm ⟨1, [⟨2, 5, 7, 1⟩]⟩ ⟨1, [⟨3, 6, 8, 1⟩]⟩ rfl

/-- C9: `MzSpectrum.to_resolution` hands back the bare native reduced
spectrum, not an `MzSpectrum` instance, so its result offers neither the
`MzSpectrum` accessors nor the `+` operator — unlike
`TimsFrame.to_resolution`, which wraps its result in a frame object. -/
theorem mzspectrum_to_resolution_unwrapped (s : MzSpectrum) (f : TimsFrame) (r q : ℕ) :
    offersMzSpectrumInterface (s.to_resolution r) = false ∧
    (∃ n, s.to_resolution r = .nativeSpectrumObj n) ∧
    offersTimsFrameInterface (f.to_resolution q) = true :=
  ⟨rfl, ⟨_, rfl⟩, rfl⟩

/-- Counterexample to C1: with all metadata queries succeeding and the
storage-handle acquisition failing, construction still succeeds and returns
an object without a storage handle — the failure is swallowed (printed
only), so construction is not atomic. -/
theorem init_swallows_handle_failure :
    PyTimsDataHandle.init ⟨.ok [], .ok [], .ok [], .error (.notFound 0)⟩
      = .ok ⟨[], [], [], none⟩ ∧
    exceptOk (ConstructEnv.handleAcquire
      ⟨.ok [], .ok [], .ok [], .error (.notFound 0)⟩) = false :=
  ⟨rfl, rfl⟩

/-- C1 (amended): construction succeeds exactly when the three metadata
queries succeed — a metadata failure aborts it — while a storage-handle
acquisition failure is caught and printed, construction still succeeding and
exposing a partially-usable object whose storage handle is absent. -/
theorem init_meta_strict_handle_swallowed (env : ConstructEnv) :
    (exceptOk (PyTimsDataHandle.init env)
      = (exceptOk env.precursorQuery && exceptOk env.fragmentQuery
          && exceptOk env.metaQuery)) ∧
    (∀ p f m e, env.precursorQuery = .ok p → env.fragmentQuery = .ok f →
      env.metaQuery = .ok m → env.handleAcquire = .error e →
      PyTimsDataHandle.init env = .ok ⟨p, f, m, none⟩) ∧
    (∀ p f m h, env.precursorQuery = .ok p → env.fragmentQuery = .ok f →
      env.metaQuery = .ok m → env.handleAcquire = .ok h →
      PyTimsDataHandle.init env = .ok ⟨p, f, m, some h⟩) := by
  obtain ⟨pq, fq, mq, ha⟩ := env
  refine ⟨?_, ?_, ?_⟩
  · cases pq <;> cases fq <;> cases mq <;> cases ha <;>
      simp [PyTimsDataHandle.init, exceptOk]
  · intro p f m e hp hf hm he
    cases hp; cases hf; cases hm; cases he
    rfl
  · intro p f m h hp hf hm hh
    cases hp; cases hf; cases hm; cases hh
    rfl

/-- C10: `TimsSlice.filter_ranged` called with only mass bounds fills in the
defaults `scan_min = 0`, `scan_max = 1000`, `intensity_min = 0`, so any
event whose scan index exceeds 1000 is silently excluded from every frame of
the result. -/
theorem filter_ranged_defaults_drop_high_scan (s : NativeTimsSlice)
    (mzMin mzMax : ℚ) (e : RawEvent) (h : 1000 < e.scan) :
    TimsSlice.filter_ranged_defaults s mzMin mzMax
      = TimsSlice.filter_ranged s mzMin mzMax 0 1000 0 ∧
    ∀ f, (f ∈ (TimsSlice.filter_ranged_defaults s mzMin mzMax).precursors ∨
          f ∈ (TimsSlice.filter_ranged_defaults s mzMin mzMax).fragments) →
      e ∉ f.events := by
  refine ⟨rfl, ?_⟩
  intro f hf he
  have hscan : e.scan ≤ 1000 := by
    rcases hf with hmem | hmem <;>
    · simp only [TimsSlice.filter_ranged_defaults, TimsSlice.filter_ranged,
        NativeTimsSlice.filterRanged, List.mem_map] at hmem
      obtain ⟨g, _, rfl⟩ := hmem
      simp only [NativeTimsFrame.filterRanged, List.mem_filter,
        Bool.and_eq_true, decide_eq_true_eq] at he
      exact he.2.1.1.1.2
  omega

/-- Witness for C10: a slice holding one precursor frame whose only event
sits at scan 1001 inside the mass window; after defaulted filtering that
event is gone from every frame of the result. -/
theorem filter_ranged_defaults_drop_high_scan_witness :
    TimsSlice.filter_ranged_defaults ⟨[⟨1, [⟨1001, 5, 3, 1⟩]⟩], []⟩ 0 10
      = TimsSlice.filter_ranged ⟨[⟨1, [⟨1001, 5, 3, 1⟩]⟩], []⟩ 0 10 0 1000 0 ∧
    ∀ f, (f ∈ (TimsSlice.filter_ranged_defaults
            ⟨[⟨1, [⟨1001, 5, 3, 1⟩]⟩], []⟩ 0 10).precursors ∨
          f ∈ (TimsSlice.filter_ranged_defaults
            ⟨[⟨1, [⟨1001, 5, 3, 1⟩]⟩], []⟩ 0 10).fragments) →
      (⟨1001, 5, 3, 1⟩ : RawEvent) ∉ f.events :=
  filter_ranged_defaults_drop_high_scan ⟨[⟨1, [⟨1001, 5, 3, 1⟩]⟩], []⟩ 0 10
    ⟨1001, 5, 3, 1⟩ (by decide)

/-- Folding one bucketed event into an accumulator adds exactly its
intensity to the accumulated total. -/
theorem accumulateBinned_intensity_sum (acc : List BinnedEvent) (e : BinnedEvent) :
    ((accumulateBinned acc e).map BinnedEvent.intensity).sum
      = (acc.map BinnedEvent.intensity).sum + e.intensity := by
  induction acc with
  | nil => simp [accumulateBinned]
  | cons a rest ih =>
    by_cases h : a.scan = e.scan ∧ a.index = e.index
    · simp only [accumulateBinned, if_pos h, List.map_cons, List.sum_cons]
      ring
    · simp only [accumulateBinned, if_neg h, List.map_cons, List.sum_cons, ih]
      ring

/-- Binning a whole event list conserves the total intensity, whatever the
starting accumulator. -/
theorem toResolution_foldl_intensity (resolution : ℕ) (l : List RawEvent) :
    ∀ acc : List BinnedEvent,
      ((l.foldl (fun acc e => accumulateBinned acc
          ⟨e.scan, bin e.mass resolution, e.intensity, e.invIonMobility⟩) acc).map
        BinnedEvent.intensity).sum
      = (acc.map BinnedEvent.intensity).sum + (l.map RawEvent.intensity).sum := by
  induction l with
  | nil =>
    intro acc
    simp
  | cons e l ih =>
    intro acc
    simp only [List.foldl_cons, List.map_cons, List.sum_cons]
    rw [ih, accumulateBinned_intensity_sum]
    ring

/-- C6: `to_resolution` bins every event's mass and sums the intensities of
events colliding in the same scan and bucket; the frame with id 7 and events
(scan 1, mass 500.001, intensity 10), (scan 1, mass 500.002, intensity 5)
reduces at resolution 2 to the single bucket `bin 500 2 = 50000` with
accumulated intensity 15, and in general reduction conserves the total
intensity. -/
theorem to_resolution_scenario :
    NativeTimsFrame.toResolution ⟨7, [⟨1, 500.001, 10, 1⟩, ⟨1, 500.002, 5, 1⟩]⟩ 2
      = ⟨7, [⟨1, 50000, 15, 1⟩]⟩ ∧
    bin 500 2 = 50000 ∧
    ∀ (f : NativeTimsFrame) (r : ℕ),
      ((f.toResolution r).events.map BinnedEvent.intensity).sum
        = (f.events.map RawEvent.intensity).sum := by
  have h1 : bin (500.001 : ℚ) 2 = 50000 := by norm_num [bin, round_eq]
  have h2 : bin (500.002 : ℚ) 2 = 50000 := by norm_num [bin, round_eq]
  refine ⟨?_, by norm_num [bin, round_eq], ?_⟩
  · simp [NativeTimsFrame.toResolution, accumulateBinned, h1, h2]
    norm_num
  · intro f r
    simpa using toResolution_foldl_intensity r f.events []

/-- C2: `get_slice_rt_range` resolves, from the cached metadata, exactly the
ids whose acquisition time lies in the inclusive window, partitioned into
precursor ids (`MsMsType = 0`) and fragment ids (`MsMsType ≠ 0`), and
returns exactly `get_slice` applied to those two id lists. -/
theorem get_slice_rt_range_spec {σ : Type} (gs : List ℤ → List ℤ → σ)
    (meta : List MetaRow) (rtMin rtMax : ℚ) :
    get_slice_rt_range gs meta rtMin rtMax
      = gs (get_frame_ids_by_type_rt_range meta rtMin rtMax).1
          (get_frame_ids_by_type_rt_range meta rtMin rtMax).2 ∧
    (∀ i, i ∈ (get_frame_ids_by_type_rt_range meta rtMin rtMax).1 ↔
      ∃ row, row ∈ meta ∧ row.Id = i ∧ rtMin ≤ row.Time ∧ row.Time ≤ rtMax ∧
        row.MsMsType = 0) ∧
    (∀ i, i ∈ (get_frame_ids_by_type_rt_range meta rtMin rtMax).2 ↔
      ∃ row, row ∈ meta ∧ row.Id = i ∧ rtMin ≤ row.Time ∧ row.Time ≤ rtMax ∧
        row.MsMsType ≠ 0) := by
  refine ⟨rfl, ?_, ?_⟩ <;> intro i <;>
    simp only [get_frame_ids_by_type_rt_range, List.mem_map, List.mem_filter,
      Bool.and_eq_true, decide_eq_true_eq, Bool.not_eq_true',
      decide_eq_false_iff_not] <;>
    constructor
  · rintro ⟨row, ⟨⟨hm, ht1, ht2⟩, hty⟩, rfl⟩
    exact ⟨row, hm, rfl, ht1, ht2, hty⟩
  · rintro ⟨row, hm, rfl, ht1, ht2, hty⟩
    exact ⟨row, ⟨⟨hm, ht1, ht2⟩, hty⟩, rfl⟩
  · rintro ⟨row, ⟨⟨hm, ht1, ht2⟩, hty⟩, rfl⟩
    exact ⟨row, hm, rfl, ht1, ht2, hty⟩
  · rintro ⟨row, hm, rfl, ht1, ht2, hty⟩
    exact ⟨row, ⟨⟨hm, ht1, ht2⟩, hty⟩, rfl⟩

/-- C3: `frames_to_rts` is a pure lookup against the cached metadata
dictionary: when every requested id is present it returns the corresponding
times in request order (`Forall₂` pairs the i-th id with the i-th time), and
when some id is absent it fails with `notFound` naming a missing id. -/
theorem frames_to_rts_spec (meta : List MetaRow) (frames : List ℤ) :
    ((∀ x ∈ frames, (metaDict meta x).isSome) →
      ∃ ts, frames_to_rts meta frames = .ok ts ∧
        List.Forall₂ (fun x t => metaDict meta x = some t) frames ts) ∧
    ((∃ x ∈ frames, metaDict meta x = none) →
      ∃ x, x ∈ frames ∧ metaDict meta x = none ∧
        frames_to_rts meta frames = .error (.notFound x)) := by
  constructor
  · intro h
    induction frames with
    | nil => exact ⟨[], rfl, .nil⟩
    | cons x xs ih =>
      have hx : (metaDict meta x).isSome := h x (List.mem_cons_self x xs)
      obtain ⟨t, ht⟩ := Option.isSome_iff_exists.mp hx
      obtain ⟨ts, hts, hall⟩ := ih fun y hy => h y (List.mem_cons_of_mem x hy)
      refine ⟨t :: ts, ?_, .cons ht hall⟩
      simp [frames_to_rts, ht, hts]
  · intro h
    induction frames with
    | nil => simp at h
    | cons x xs ih =>
      cases hx : metaDict meta x with
      | none =>
        exact ⟨x, List.mem_cons_self x xs, hx, by simp [frames_to_rts, hx]⟩
      | some t =>
        have h' : ∃ y ∈ xs, metaDict meta y = none := by
          rcases h with ⟨y, hy, hnone⟩
          rcases List.mem_cons.mp hy with rfl | hmem
          · rw [hx] at hnone
            cases hnone
          · exact ⟨y, hmem, hnone⟩
        obtain ⟨y, hy, hnone, herr⟩ := ih h'
        refine ⟨y, List.mem_cons_of_mem x hy, hnone, ?_⟩
        simp [frames_to_rts, hx, herr]

/-- Zipping the five columns of a leading frame's block recovers that
frame's rows followed by the zip of the remaining columns. -/
theorem zipColumns_block (l : List RawEvent) (fid : ℤ) (as : List ℤ)
    (bs : List ℕ) (cs ds es : List ℚ) :
    zipColumns (l.map (fun _ => fid) ++ as) (l.map RawEvent.scan ++ bs)
      (l.map RawEvent.mass ++ cs) (l.map RawEvent.invIonMobility ++ ds)
      (l.map RawEvent.intensity ++ es)
      = l.map (fun e => ⟨fid, e.scan, e.mass, e.invIonMobility, e.intensity⟩)
        ++ zipColumns as bs cs ds es := by
  induction l with
  | nil => rfl
  | cons e l ih =>
    simp only [List.map_cons, List.cons_append, zipColumns, List.append_eq]
    rw [ih]

/-- C8: the point-table projection yields exactly one row per retained event
with the columns (frame, scan, mass, inverse mobility, intensity), in frame
order then within-frame event order — `Points3D.get_points` coincides with
the specified flattening, and so does the precursor projection of a slice. -/
theorem get_points_spec (s : NativeTimsSlice) (fs : List NativeTimsFrame) :
    Points3D.get_points fs = pointTableSpec fs ∧
    TimsSlice.get_precursor_points s = pointTableSpec s.precursors := by
  have main : ∀ gs : List NativeTimsFrame, Points3D.get_points gs = pointTableSpec gs := by
    intro gs
    induction gs with
    | nil => rfl
    | cons f rest ih =>
      have h1 : framesColumn (f :: rest)
          = f.events.map (fun _ => f.frameId) ++ framesColumn rest := by
        simp [framesColumn]
      have h2 : scansColumn (f :: rest)
          = f.events.map RawEvent.scan ++ scansColumn rest := by
        simp [scansColumn]
      have h3 : mzColumn (f :: rest)
          = f.events.map RawEvent.mass ++ mzColumn rest := by
        simp [mzColumn]
      have h4 : invIonMobilityColumn (f :: rest)
          = f.events.map RawEvent.invIonMobility ++ invIonMobilityColumn rest := by
        simp [invIonMobilityColumn]
      have h5 : intensityColumn (f :: rest)
          = f.events.map RawEvent.intensity ++ intensityColumn rest := by
        simp [intensityColumn]
      unfold Points3D.get_points at ih ⊢
      rw [h1, h2, h3, h4, h5, zipColumns_block, ih]
      simp [pointTableSpec]
  exact ⟨main fs, main s.precursors⟩
